import Mathlib

/-!
Verification development for foomo/contentserver-mcp.

Shallow embedding of the aggregation service (`service/service.go`) and the
SSE event dispatcher (`mcp/sse.go`).  External collaborators (the content
server client, the HTTP scraper, registered content scrapers) are modelled as
oracle functions bundled in a `Backend` record; all code of the repository
itself is translated function by function.  Fallible Go code returning
`(*T, error)` is modelled as `Except String T`.
-/

/-- `vo.ContentSummary` (service/vo/vo.go): scrape-derived metadata. -/
structure ContentSummary where
  title : String
  name : String
  description : String
  keywords : List String
  deriving DecidableEq, Repr

/-- `vo.DocumentSummary` (service/vo/vo.go): identity fields plus the embedded
`ContentSummary`. -/
structure DocumentSummary where
  mimeType : String
  id : String
  url : String
  contentSummary : ContentSummary
  deriving DecidableEq, Repr

/-- The Go zero value of `vo.DocumentSummary`: what a freshly `make`d slice
slot holds before (or in the absence of) any write. -/
def zeroSummary : DocumentSummary :=
  { mimeType := "", id := "", url := "",
    contentSummary := { title := "", name := "", description := "", keywords := [] } }

/-- `vo.Document` (service/vo/vo.go). -/
structure Document where
  documentSummary : DocumentSummary
  markdown : String
  breadcrump : List DocumentSummary
  children : List DocumentSummary
  prevSiblings : List DocumentSummary
  nextSiblings : List DocumentSummary
  deriving DecidableEq, Repr

/-- `content.Item` of the contentserver dependency: the fields GetDocument
reads (ID, URI, MimeType). -/
structure Item where
  id : String
  uri : String
  mimeType : String
  deriving DecidableEq, Repr

/-- `content.SiteContent` as consumed by GetDocument: the resolved item, its
mime type and the ancestor path (`content.Path`, nearest ancestor first). -/
structure SiteContent where
  mimeType : String
  item : Item
  path : List Item
  deriving DecidableEq, Repr

/-- A node as returned by `GetNodes`: the ordered child index
(`node.Index`) and the id-keyed lookup of child items (`node.Nodes`,
modelled as an association list; GetDocument only reads `.Item` of each
child node). -/
structure NodeInfo where
  index : List String
  nodes : List (String × Item)
  deriving DecidableEq, Repr

/-- Go map lookup `m[k]` on an association list. -/
def lookupA {α : Type} : List (String × α) → String → Option α
  | [], _ => none
  | (k, v) :: rest, key => if k == key then some v else lookupA rest key

/-- The external collaborators of `service.GetDocument`, as oracle functions:
* `getContent` — `contentServerClient.GetContent` for a path (Env fixed);
* `scrape` — `scrape.Scrape` for a URL (httpClient and content selector
  fixed), returning the summary and the markdown;
* `getNodes` — `contentServerClient.GetNodes` keyed by the single node id the
  code requests (Env and mime-type filter fixed); the inner `Option` is
  presence of that id in the returned map;
* `contentScrapers` — the `map[vo.MimeType]ContentScraper` registry, each
  scraper already applied to its fixed httpClient/siteSettings arguments;
* `baseURL` — `siteSettings.BaseURL`. -/
structure Backend where
  baseURL : String
  getContent : String → Except String SiteContent
  scrape : String → Except String (DocumentSummary × String)
  getNodes : String → Except String (Option NodeInfo)
  contentScrapers : String → Option (SiteContent → Except String String)

/-- `isValidURI` (service.go:77): non-empty and "/"-prefixed.  Go's
`strings.HasPrefix(uri, "/")` with a one-character prefix holds exactly when
the first character of `uri` is `'/'`; it is stated here on the character
list because Lean's own `String` prefix test is defined by well-founded
recursion and does not evaluate inside the kernel. -/
def isValidURI (uri : String) : Bool :=
  uri != "" && uri.data.head? == some '/'

/-- `loadItemData` (service.go:255): overwrite the identity fields of a
summary from the authoritative item. -/
def loadItemData (baseURL : String) (d : DocumentSummary) (item : Item) : DocumentSummary :=
  { d with mimeType := item.mimeType, id := item.id, url := baseURL ++ item.uri }

/-- The breadcrumb loop (service.go:115-127): walk `content.Path` with its
index `i`, skip invalid URIs, scrape the rest and write the summary at slot
`n - i - 1` of the preallocated slice. -/
def breadcrumbLoop (b : Backend) (n : Nat) :
    List Item → Nat → List DocumentSummary → Except String (List DocumentSummary)
  | [], _, acc => .ok acc
  | item :: rest, i, acc =>
    if isValidURI item.uri then
      match b.scrape (b.baseURL ++ item.uri) with
      | .error e => .error e
      | .ok (s, _) => breadcrumbLoop b n rest (i + 1) (acc.set (n - i - 1) s)
    else
      breadcrumbLoop b n rest (i + 1) acc

/-- The sibling loop (service.go:178-207): walk the parent's index carrying
the `isPrevious` flag; the current item's id flips the flag and is skipped,
missing nodes abort, invalid URIs are skipped, the rest are scraped, identity
overwritten and appended to the prev or next accumulator. -/
def siblingsLoop (b : Backend) (pn : NodeInfo) (curID : String) :
    List String → Bool → List DocumentSummary → List DocumentSummary →
    Except String (List DocumentSummary × List DocumentSummary)
  | [], _, prev, next => .ok (prev, next)
  | id :: rest, isPrevious, prev, next =>
    if id == curID then
      siblingsLoop b pn curID rest false prev next
    else
      match lookupA pn.nodes id with
      | none => .error "sibling node not found"
      | some item =>
        if isValidURI item.uri then
          match b.scrape (b.baseURL ++ item.uri) with
          | .error e => .error e
          | .ok (s, _) =>
            if isPrevious then
              siblingsLoop b pn curID rest isPrevious (prev ++ [loadItemData b.baseURL s item]) next
            else
              siblingsLoop b pn curID rest isPrevious prev (next ++ [loadItemData b.baseURL s item])
        else
          siblingsLoop b pn curID rest isPrevious prev next

/-- The children loop (service.go:230-244): walk the current node's index;
missing nodes abort, every entry is scraped (no URI validity check), identity
overwritten and appended. -/
def childrenLoop (b : Backend) (cn : NodeInfo) :
    List String → Except String (List DocumentSummary)
  | [] => .ok []
  | id :: rest =>
    match lookupA cn.nodes id with
    | none => .error "child node not found"
    | some item =>
      match b.scrape (b.baseURL ++ item.uri) with
      | .error e => .error e
      | .ok (s, _) =>
        match childrenLoop b cn rest with
        | .error e => .error e
        | .ok out => .ok (loadItemData b.baseURL s item :: out)

/-- The content-scraper hook (service.go:137-148): when a scraper is
registered for the content's mime type, its output replaces the markdown. -/
def applyContentScraper (b : Backend) (content : SiteContent) (markdown : String) :
    Except String String :=
  match b.contentScrapers content.mimeType with
  | some cs => cs content
  | none => .ok markdown

/-- The sibling block (service.go:157-209): nothing to do for an empty path;
otherwise fetch the parent's node, fail when it is missing, and run the
sibling loop over its index. -/
def computeSiblings (b : Backend) (content : SiteContent) :
    Except String (List DocumentSummary × List DocumentSummary) :=
  match content.path with
  | [] => .ok ([], [])
  | parent :: _ =>
    match b.getNodes parent.id with
    | .error e => .error e
    | .ok none => .error "parent node not found"
    | .ok (some pn) => siblingsLoop b pn content.item.id pn.index true [] []

/-- The children block (service.go:211-244): fetch the current node, fail
when it is missing, and run the children loop over its index. -/
def computeChildren (b : Backend) (content : SiteContent) :
    Except String (List DocumentSummary) :=
  match b.getNodes content.item.id with
  | .error e => .error e
  | .ok none => .error "content node not found"
  | .ok (some cn) => childrenLoop b cn cn.index

/-- `service.GetDocument` (service.go:81-253).  Every fetch failure returns
the error; on success the document is assembled from the breadcrumb slice,
the (identity-overwritten) self summary, the markdown, the sibling partition
and the children. -/
def GetDocument (b : Backend) (path : String) : Except String Document :=
  match b.getContent path with
  | .error e => .error e
  | .ok content =>
    match breadcrumbLoop b content.path.length content.path 0
        (List.replicate content.path.length zeroSummary) with
    | .error e => .error e
    | .ok breadcrump =>
      match b.scrape (b.baseURL ++ path) with
      | .error e => .error e
      | .ok (summary, markdown0) =>
        match applyContentScraper b content markdown0 with
        | .error e => .error e
        | .ok markdown =>
          match computeSiblings b content with
          | .error e => .error e
          | .ok (prevS, nextS) =>
            match computeChildren b content with
            | .error e => .error e
            | .ok children =>
              .ok { documentSummary := loadItemData b.baseURL summary content.item,
                    markdown := markdown,
                    breadcrump := breadcrump,
                    children := children,
                    prevSiblings := prevS,
                    nextSiblings := nextS }

/-! ## The SSE dispatcher (mcp/sse.go) -/

/-- One Go `time.Second` in nanoseconds (`time.Duration` is an integer
nanosecond count). -/
def goSecond : Nat := 1000000000

/-- `SSEServerConfig` (sse.go:47-51); durations in nanoseconds. -/
structure SSEServerConfig where
  keepaliveInterval : Nat
  bufferSize : Nat
  clientTimeout : Nat
  deriving DecidableEq, Repr

/-- `DefaultSSEServerConfig` (sse.go:54-60). -/
def DefaultSSEServerConfig : SSEServerConfig :=
  { keepaliveInterval := 30 * goSecond,
    bufferSize := 100,
    clientTimeout := 60 * goSecond }

/-- The config resolution in `NewMCPSSEServer` (sse.go:64-66): a nil config
is replaced by the default. -/
def effectiveConfig : Option SSEServerConfig → SSEServerConfig
  | none => DefaultSSEServerConfig
  | some c => c

/-- The interval of the keepalive ticker created by `HandleSSE`
(sse.go:211): `time.NewTicker(30 * time.Second)` — a hardcoded constant;
`HandleSSE` receives no configuration and reads no field of
`SSEServerConfig`. -/
def handleSSETickerInterval : Nat := 30 * goSecond

/-- An event on the broadcast queue: the fields relevant to queueing
(`SSEEvent.ID`, `SSEEvent.Event`). -/
structure SSEEventM where
  id : String
  event : String
  deriving DecidableEq, Repr

/-- The state touched by `broadcastEvent`: the buffered channel
`s.broadcast` (capacity `config.BufferSize`) with no concurrent reader, and
the log of "broadcast channel full, dropping event" warnings (one entry per
dropped event, carrying the event id — sse.go:190). -/
structure BroadcastState where
  capacity : Nat
  queue : List SSEEventM
  droppedLog : List String
  deriving DecidableEq, Repr

/-- `broadcastEvent` (sse.go:186-192): `select` with a `default` branch — a
non-full channel receives the event, otherwise the event is dropped and the
drop logged.  Total function: the producer never blocks. -/
def broadcastEvent (s : BroadcastState) (e : SSEEventM) : BroadcastState :=
  if s.queue.length < s.capacity then
    { s with queue := s.queue ++ [e] }
  else
    { s with droppedLog := s.droppedLog ++ [e.id] }

/-- A registered SSE client: the fields relevant to removal. -/
structure SSEClientM where
  id : String
  deriving DecidableEq, Repr

/-- The client registry of `MCPSSEServer`: the `clients` map (association
list keyed by client id, keys unique as in a Go map) plus the log of
`close(client.Done)` calls performed (one entry, the client id, per close).
The mutex serialises `removeClient` calls, so the sequential model is
faithful. -/
structure ClientRegistry where
  clients : List (String × SSEClientM)
  closedDone : List String
  deriving DecidableEq, Repr

/-- Go `delete(m, k)` on the association-list model of a map. -/
def eraseA {α : Type} (l : List (String × α)) (key : String) : List (String × α) :=
  l.filter (fun p => p.1 != key)

/-- `removeClient` (sse.go:174-183): under the lock, when the id is present
the Done channel is closed and the entry deleted; otherwise nothing
happens. -/
def removeClient (r : ClientRegistry) (cid : String) : ClientRegistry :=
  match lookupA r.clients cid with
  | some _ => { clients := eraseA r.clients cid, closedDone := r.closedDone ++ [cid] }
  | none => r

/-- The kinds of per-operation stream events (`*_start`, `*_result`,
`*_error`, `*_complete`). -/
inductive StreamEventKind where
  | start
  | result
  | errorEvent
  | complete
  deriving DecidableEq, Repr

/-- The sequence of events `HandleScrapeSSE` (sse.go:271-327) writes to the
requesting connection once the request has validated, as a function of the
scrape outcome: the start event is written before the worker goroutine; the
goroutine emits the error event and returns on failure, and emits the result
event followed by the complete event on success. -/
def scrapeSSEEvents (scrapeResult : Except String (DocumentSummary × String)) :
    List StreamEventKind :=
  StreamEventKind.start ::
    (match scrapeResult with
     | .error _ => [StreamEventKind.errorEvent]
     | .ok _ => [StreamEventKind.result, StreamEventKind.complete])

/-- The sequence of events `HandleGetDocumentSSE` (sse.go:364-434) writes to
the requesting connection once the request has validated, as a function of
the internal request-creation outcome (sse.go:381) and the GetDocument
outcome: either failure emits the error event and returns; success emits the
result event followed by the complete event. -/
def documentSSEEvents (requestCreation : Except String Unit)
    (docResult : Except String Document) : List StreamEventKind :=
  StreamEventKind.start ::
    (match requestCreation with
     | .error _ => [StreamEventKind.errorEvent]
     | .ok _ =>
       match docResult with
       | .error _ => [StreamEventKind.errorEvent]
       | .ok _ => [StreamEventKind.result, StreamEventKind.complete])

/-! ## Characterizations used by the theorems -/

/-- What the breadcrumb loop leaves at the slot of a given ancestor: the
scraped summary for a valid URI, the untouched zero value otherwise (the
error branch is irrelevant on successful runs). -/
def breadcrumbEntry (b : Backend) (item : Item) : DocumentSummary :=
  if isValidURI item.uri then
    match b.scrape (b.baseURL ++ item.uri) with
    | .ok (s, _) => s
    | .error _ => zeroSummary
  else zeroSummary

/-- The summaries the sibling loop produces from a run of index entries (none
of them the pivot): missing nodes and failed scrapes contribute nothing (both
are impossible on successful runs), invalid URIs are skipped, the rest are
scraped and identity-overwritten, in index order. -/
def siblingSummaries (b : Backend) (pn : NodeInfo) : List String → List DocumentSummary
  | [] => []
  | id :: rest =>
    match lookupA pn.nodes id with
    | none => siblingSummaries b pn rest
    | some item =>
      if isValidURI item.uri then
        match b.scrape (b.baseURL ++ item.uri) with
        | .ok (s, _) => loadItemData b.baseURL s item :: siblingSummaries b pn rest
        | .error _ => siblingSummaries b pn rest
      else siblingSummaries b pn rest

/-- The summaries the children loop produces: every index entry contributes
(no URI validity filter); missing nodes and failed scrapes contribute nothing
(both are impossible on successful runs). -/
def childSummaries (b : Backend) (cn : NodeInfo) : List String → List DocumentSummary
  | [] => []
  | id :: rest =>
    match lookupA cn.nodes id with
    | none => childSummaries b cn rest
    | some item =>
      match b.scrape (b.baseURL ++ item.uri) with
      | .ok (s, _) => loadItemData b.baseURL s item :: childSummaries b cn rest
      | .error _ => childSummaries b cn rest

/-! ## Concrete inputs for counterexamples and witnesses -/

/-- A scrape oracle that succeeds on every URL with a summary derived from
the URL. -/
def mkSummary (u : String) : DocumentSummary :=
  { mimeType := "scraped-mime", id := "scraped-id", url := "scraped-url",
    contentSummary := { title := "title " ++ u, name := "name", description := "desc",
                        keywords := ["k"] } }

def okScrape : String → Except String (DocumentSummary × String) :=
  fun u => .ok (mkSummary u, "md " ++ u)

def itemCurA : Item := { id := "cur", uri := "/cur", mimeType := "text/html" }

/-- An ancestor whose URI is empty, hence invalid. -/
def itemParA : Item := { id := "par", uri := "", mimeType := "text/html" }

def contentA : SiteContent :=
  { mimeType := "text/html", item := itemCurA, path := [itemParA] }

/-- Backend A: one resolvable path whose single ancestor has an invalid URI;
every scrape succeeds; no registered content scrapers; empty child indices. -/
def envA : Backend :=
  { baseURL := "https://s",
    getContent := fun p => if p == "/cur" then .ok contentA else .error "content not found",
    scrape := okScrape,
    getNodes := fun id =>
      if id == "par" then .ok (some { index := [], nodes := [] })
      else if id == "cur" then .ok (some { index := [], nodes := [] })
      else .error "no such node",
    contentScrapers := fun _ => none }

def itemHome : Item := { id := "home", uri := "/", mimeType := "text/html" }
def itemRecipes : Item := { id := "recipes", uri := "/recipes", mimeType := "text/html" }
def itemFrench : Item := { id := "french", uri := "/recipes/french", mimeType := "text/html" }
def itemItalian : Item := { id := "italian", uri := "/recipes/italian", mimeType := "text/html" }
def itemSpanish : Item := { id := "spanish", uri := "/recipes/spanish", mimeType := "text/html" }

def contentB : SiteContent :=
  { mimeType := "text/html", item := itemItalian, path := [itemRecipes, itemHome] }

def pnB : NodeInfo :=
  { index := ["french", "italian", "spanish"],
    nodes := [("french", itemFrench), ("italian", itemItalian), ("spanish", itemSpanish)] }

/-- Backend B: the spec's end-to-end example — current item `italian`,
parent index `[french, italian, spanish]`, ancestors `[recipes, home]`
(nearest first), all URIs valid, every scrape succeeds. -/
def envB : Backend :=
  { baseURL := "https://s",
    getContent := fun p =>
      if p == "/recipes/italian" then .ok contentB else .error "content not found",
    scrape := okScrape,
    getNodes := fun id =>
      if id == "recipes" then .ok (some pnB)
      else if id == "italian" then .ok (some { index := [], nodes := [] })
      else .error "no such node",
    contentScrapers := fun _ => none }

def itemCurC : Item := { id := "cur", uri := "/cur", mimeType := "text/html" }
def itemKidOk : Item := { id := "k1", uri := "/cur/k1", mimeType := "text/html" }

/-- A child whose URI is not "/"-prefixed, hence invalid. -/
def itemKidBad : Item := { id := "k2", uri := "nope", mimeType := "text/html" }

def contentC : SiteContent :=
  { mimeType := "text/html", item := itemCurC, path := [] }

def cnC : NodeInfo :=
  { index := ["k1", "k2"], nodes := [("k1", itemKidOk), ("k2", itemKidBad)] }

/-- Backend C: no ancestors, the current node's child index holds one child
with a valid URI and one with an invalid URI. -/
def envC : Backend :=
  { baseURL := "https://s",
    getContent := fun p => if p == "/cur" then .ok contentC else .error "content not found",
    scrape := okScrape,
    getNodes := fun id => if id == "cur" then .ok (some cnC) else .error "no such node",
    contentScrapers := fun _ => none }

/-- Backend D: like C, but the child index names an id absent from the
lookup map. -/
def envD : Backend :=
  { baseURL := "https://s",
    getContent := fun p => if p == "/cur" then .ok contentC else .error "content not found",
    scrape := okScrape,
    getNodes := fun id =>
      if id == "cur" then .ok (some { index := ["k1", "k2"], nodes := [("k1", itemKidOk)] })
      else .error "no such node",
    contentScrapers := fun _ => none }

/-- Backend E: content resolution itself fails. -/
def envErr : Backend :=
  { baseURL := "https://s",
    getContent := fun _ => .error "boom",
    scrape := okScrape,
    getNodes := fun _ => .error "no such node",
    contentScrapers := fun _ => none }

/-! ## Inversion of a successful GetDocument -/

/-- A successful `GetDocument` determines all of its sub-results: the
resolved content, the breadcrumb slice, the self scrape, the markdown, the
sibling partition and the children. -/
theorem getDocument_ok_elim {b : Backend} {path : String} {doc : Document}
    (h : GetDocument b path = .ok doc) :
    ∃ content, b.getContent path = .ok content ∧
      breadcrumbLoop b content.path.length content.path 0
        (List.replicate content.path.length zeroSummary) = .ok doc.breadcrump ∧
      ∃ s m0, b.scrape (b.baseURL ++ path) = .ok (s, m0) ∧
        doc.documentSummary = loadItemData b.baseURL s content.item ∧
        applyContentScraper b content m0 = .ok doc.markdown ∧
        computeSiblings b content = .ok (doc.prevSiblings, doc.nextSiblings) ∧
        computeChildren b content = .ok doc.children := by
  unfold GetDocument at h
  split at h
  · exact absurd h (by simp)
  rename_i content heq
  split at h
  · exact absurd h (by simp)
  rename_i bc heq2
  split at h
  · exact absurd h (by simp)
  rename_i p s m0 heq3
  split at h
  · exact absurd h (by simp)
  rename_i md heq4
  split at h
  · exact absurd h (by simp)
  rename_i q prevS nextS heq5
  split at h
  · exact absurd h (by simp)
  rename_i children heq6
  injection h with h
  subst h
  exact ⟨content, heq, heq2, s, m0, heq3, rfl, heq4, heq5, heq6⟩

/-! ## Breadcrumb characterization -/

/-- Running the breadcrumb loop over a suffix of the path writes the entries'
summaries into the (still zero-valued) prefix of the slice, in reversed
positions; the loop never touches the slice beyond the entries it owns. -/
theorem breadcrumbLoop_ok_eq (b : Backend) (n : Nat) :
    ∀ (items : List Item) (i : Nat) (acc out : List DocumentSummary),
      i + items.length = n → acc.length = n →
      acc.take (n - i) = List.replicate (n - i) zeroSummary →
      breadcrumbLoop b n items i acc = .ok out →
      out = (items.map (breadcrumbEntry b)).reverse ++ acc.drop items.length := by
  intro items
  induction items with
  | nil =>
    intro i acc out _ _ _ h
    simp only [breadcrumbLoop] at h
    injection h with h
    simp [h]
  | cons item rest ih =>
    intro i acc out hi hlen htake h
    have hklt : n - i - 1 < acc.length := by
      simp only [List.length_cons] at hi; omega
    have hk : n - i - 1 = rest.length := by
      simp only [List.length_cons] at hi; omega
    have htake1 : acc.take (n - i - 1) = List.replicate (n - i - 1) zeroSummary := by
      have h1 : acc.take (n - i - 1) = (acc.take (n - i)).take (n - i - 1) := by
        rw [List.take_take]
        congr 1
        omega
      rw [h1, htake, List.take_replicate]
      congr 1
      omega
    by_cases hv : isValidURI item.uri
    · rw [breadcrumbLoop, if_pos hv] at h
      cases hs : b.scrape (b.baseURL ++ item.uri) with
      | error e => rw [hs] at h; exact absurd h (by simp)
      | ok p =>
        obtain ⟨s, m⟩ := p
        rw [hs] at h
        have hset := List.set_eq_take_cons_drop s hklt
        have ihres := ih (i + 1) (acc.set (n - i - 1) s) out
          (by simp only [List.length_cons] at hi; omega)
          (by simp [hlen])
          (by
            rw [hset]
            have h1 : n - (i + 1) = n - i - 1 := by omega
            rw [h1]
            rw [List.take_append_of_le_length (by simp [List.length_take]; omega)]
            rw [List.take_take]
            have h2 : (n - i - 1) ⊓ (n - i - 1) = n - i - 1 := by omega
            rw [h2, htake1])
          h
        have hdrop : (acc.set (n - i - 1) s).drop rest.length = s :: acc.drop (rest.length + 1) := by
          rw [hset, hk]
          rw [List.drop_append_of_le_length (by simp [List.length_take]; omega)]
          have h3 : (acc.take rest.length).drop rest.length = [] := by
            apply List.drop_eq_nil_of_le
            simp [List.length_take]
          rw [h3, List.nil_append]
        have hentry : breadcrumbEntry b item = s := by
          rw [breadcrumbEntry, if_pos hv, hs]
        rw [ihres, hdrop]
        simp [hentry, List.append_assoc]
    · rw [breadcrumbLoop, if_neg hv] at h
      have ihres := ih (i + 1) acc out
        (by simp only [List.length_cons] at hi; omega)
        hlen
        (by
          have h1 : n - (i + 1) = n - i - 1 := by omega
          rw [h1, htake1])
        h
      have hklt2 : rest.length < acc.length := hk ▸ hklt
      have h5 : rest.length < (List.take (n - i) acc).length := by
        have h7 : i + rest.length + 1 = n := by
          simp only [List.length_cons] at hi
          omega
        simp only [List.length_take, hlen]
        omega
      have hgetz : acc[rest.length] = zeroSummary := by
        have h6 := List.getElem_take acc (j := n - i) (i := rest.length) (h := h5)
        simp only [htake, List.getElem_replicate] at h6
        exact h6.symm
      have hdropz : acc.drop rest.length = zeroSummary :: acc.drop (rest.length + 1) := by
        rw [List.drop_eq_getElem_cons hklt2, hgetz]
      have hentry : breadcrumbEntry b item = zeroSummary := by
        rw [breadcrumbEntry, if_neg hv]
      rw [ihres, hdropz]
      simp [hentry, List.append_assoc]

/-- On success, the breadcrumb is exactly the per-ancestor entries (scraped
summary when the URI is valid, untouched zero value when not) in reversed —
root-first — order. -/
theorem breadcrumb_of_ok {b : Backend} {path : String} {doc : Document} {content : SiteContent}
    (hdoc : GetDocument b path = .ok doc)
    (hc : b.getContent path = .ok content) :
    doc.breadcrump = (content.path.map (breadcrumbEntry b)).reverse := by
  obtain ⟨content', hc', hbc, -⟩ := getDocument_ok_elim hdoc
  rw [hc] at hc'
  injection hc' with h'
  subst h'
  have hmain := breadcrumbLoop_ok_eq b content.path.length content.path 0
    (List.replicate content.path.length zeroSummary) doc.breadcrump
    (by simp) (by simp) (by simp [List.take_replicate]) hbc
  simpa using hmain

/-! ## Sibling-partition characterization -/

/-- After the pivot has been seen (`isPrevious = false`), a pivot-free run of
index entries lands entirely in the next-siblings accumulator, in order. -/
theorem siblingsLoop_after_pivot (b : Backend) (pn : NodeInfo) (curID : String) :
    ∀ (ids : List String) (prev next p nx : List DocumentSummary),
      curID ∉ ids →
      siblingsLoop b pn curID ids false prev next = .ok (p, nx) →
      p = prev ∧ nx = next ++ siblingSummaries b pn ids := by
  intro ids
  induction ids with
  | nil =>
    intro prev next p nx _ h
    simp only [siblingsLoop] at h
    injection h with h
    injection h with h1 h2
    simp [← h1, ← h2, siblingSummaries]
  | cons id rest ih =>
    intro prev next p nx hmem h
    have hne : (id == curID) = false := by
      simp only [List.mem_cons, not_or] at hmem
      simp [bne_iff_ne, Ne, beq_iff_eq]
      exact fun hcontra => hmem.1 hcontra.symm
    rw [siblingsLoop, if_neg (by simp [hne])] at h
    have hmem' : curID ∉ rest := by
      simp only [List.mem_cons, not_or] at hmem
      exact hmem.2
    cases hl : lookupA pn.nodes id with
    | none => rw [hl] at h; exact absurd h (by simp)
    | some item =>
      rw [hl] at h
      dsimp only at h
      by_cases hv : isValidURI item.uri
      · rw [if_pos hv] at h
        cases hs : b.scrape (b.baseURL ++ item.uri) with
        | error e => rw [hs] at h; exact absurd h (by simp)
        | ok q =>
          obtain ⟨s, m⟩ := q
          rw [hs] at h
          dsimp only at h
          rw [if_neg (by simp : ¬(false = true))] at h
          obtain ⟨hp, hnx⟩ := ih prev (next ++ [loadItemData b.baseURL s item]) p nx hmem' h
          refine ⟨hp, ?_⟩
          rw [hnx]
          simp [siblingSummaries, hl, hv, hs, List.append_assoc]
      · rw [if_neg hv] at h
        obtain ⟨hp, hnx⟩ := ih prev next p nx hmem' h
        refine ⟨hp, ?_⟩
        rw [hnx]
        simp [siblingSummaries, hl, hv]

/-- Before the pivot (`isPrevious = true`), a pivot-free prefix lands
entirely in the prev-siblings accumulator; the pivot flips the phase, and the
pivot-free suffix lands in the next-siblings accumulator. -/
theorem siblingsLoop_split (b : Backend) (pn : NodeInfo) (curID : String) :
    ∀ (before after : List String) (prev next p nx : List DocumentSummary),
      curID ∉ before → curID ∉ after →
      siblingsLoop b pn curID (before ++ curID :: after) true prev next = .ok (p, nx) →
      p = prev ++ siblingSummaries b pn before ∧ nx = next ++ siblingSummaries b pn after := by
  intro before
  induction before with
  | nil =>
    intro after prev next p nx _ hafter h
    rw [List.nil_append, siblingsLoop, if_pos (by simp)] at h
    obtain ⟨hp, hnx⟩ := siblingsLoop_after_pivot b pn curID after prev next p nx hafter h
    simp [hp, hnx, siblingSummaries]
  | cons id rest ih =>
    intro after prev next p nx hmem hafter h
    have hne : (id == curID) = false := by
      simp only [List.mem_cons, not_or] at hmem
      simp [bne_iff_ne, Ne, beq_iff_eq]
      exact fun hcontra => hmem.1 hcontra.symm
    rw [List.cons_append, siblingsLoop, if_neg (by simp [hne])] at h
    have hmem' : curID ∉ rest := by
      simp only [List.mem_cons, not_or] at hmem
      exact hmem.2
    cases hl : lookupA pn.nodes id with
    | none => rw [hl] at h; exact absurd h (by simp)
    | some item =>
      rw [hl] at h
      dsimp only at h
      by_cases hv : isValidURI item.uri
      · rw [if_pos hv] at h
        cases hs : b.scrape (b.baseURL ++ item.uri) with
        | error e => rw [hs] at h; exact absurd h (by simp)
        | ok q =>
          obtain ⟨s, m⟩ := q
          rw [hs] at h
          dsimp only at h
          rw [if_pos rfl] at h
          obtain ⟨hp, hnx⟩ := ih after (prev ++ [loadItemData b.baseURL s item]) next p nx hmem' hafter h
          refine ⟨?_, hnx⟩
          rw [hp]
          simp [siblingSummaries, hl, hv, hs, List.append_assoc]
      · rw [if_neg hv] at h
        obtain ⟨hp, hnx⟩ := ih after prev next p nx hmem' hafter h
        refine ⟨?_, hnx⟩
        rw [hp]
        simp [siblingSummaries, hl, hv]

/-! ## Children characterization -/

/-- A successful children loop yields exactly the child summaries, one per
index entry (no entry skipped), and witnesses that every entry resolved in
the lookup map and scraped successfully. -/
theorem childrenLoop_ok_char (b : Backend) (cn : NodeInfo) :
    ∀ (ids : List String) (out : List DocumentSummary),
      childrenLoop b cn ids = .ok out →
      out = childSummaries b cn ids ∧ out.length = ids.length ∧
        ∀ id ∈ ids, ∃ item, lookupA cn.nodes id = some item ∧
          ∃ s m, b.scrape (b.baseURL ++ item.uri) = .ok (s, m) := by
  intro ids
  induction ids with
  | nil =>
    intro out h
    simp only [childrenLoop] at h
    injection h with h
    simp [← h, childSummaries]
  | cons id rest ih =>
    intro out h
    rw [childrenLoop] at h
    cases hl : lookupA cn.nodes id with
    | none => rw [hl] at h; exact absurd h (by simp)
    | some item =>
      rw [hl] at h
      dsimp only at h
      cases hs : b.scrape (b.baseURL ++ item.uri) with
      | error e => rw [hs] at h; exact absurd h (by simp)
      | ok q =>
        obtain ⟨s, m⟩ := q
        rw [hs] at h
        dsimp only at h
        cases hr : childrenLoop b cn rest with
        | error e => rw [hr] at h; exact absurd h (by simp)
        | ok restOut =>
          rw [hr] at h
          dsimp only at h
          injection h with h
          obtain ⟨hchar, hlen, hsub⟩ := ih restOut hr
          refine ⟨?_, ?_, ?_⟩
          · rw [← h, hchar]
            simp [childSummaries, hl, hs]
          · rw [← h]
            simp [hlen]
          · intro id' hid'
            rcases List.mem_cons.mp hid' with hcase | hcase
            · subst hcase
              exact ⟨item, hl, s, m, hs⟩
            · exact hsub id' hcase

/-! ## Success implies every sub-fetch succeeded -/

/-- A successful breadcrumb loop witnesses a successful scrape for every
valid-URI entry it covered. -/
theorem breadcrumbLoop_ok_sub (b : Backend) (n : Nat) :
    ∀ (items : List Item) (i : Nat) (acc out : List DocumentSummary),
      breadcrumbLoop b n items i acc = .ok out →
      ∀ item ∈ items, isValidURI item.uri = true →
        ∃ s m, b.scrape (b.baseURL ++ item.uri) = .ok (s, m) := by
  intro items
  induction items with
  | nil => intro i acc out _ item hmem; exact absurd hmem (by simp)
  | cons it rest ih =>
    intro i acc out h item hmem hvalid
    rcases List.mem_cons.mp hmem with hcase | hcase
    · subst hcase
      rw [breadcrumbLoop, if_pos hvalid] at h
      cases hs : b.scrape (b.baseURL ++ item.uri) with
      | error e => rw [hs] at h; exact absurd h (by simp)
      | ok q => obtain ⟨s, m⟩ := q; exact ⟨s, m, rfl⟩
    · by_cases hv : isValidURI it.uri
      · rw [breadcrumbLoop, if_pos hv] at h
        cases hs : b.scrape (b.baseURL ++ it.uri) with
        | error e => rw [hs] at h; exact absurd h (by simp)
        | ok q =>
          obtain ⟨s, m⟩ := q
          rw [hs] at h
          dsimp only at h
          exact ih (i + 1) (acc.set (n - i - 1) s) out h item hcase hvalid
      · rw [breadcrumbLoop, if_neg hv] at h
        exact ih (i + 1) acc out h item hcase hvalid

/-- A successful sibling loop witnesses, for every non-pivot entry it
covered, a resolving lookup, and a successful scrape whenever that entry's
URI is valid. -/
theorem siblingsLoop_ok_sub (b : Backend) (pn : NodeInfo) (curID : String) :
    ∀ (ids : List String) (mode : Bool) (prev next : List DocumentSummary)
      (r : List DocumentSummary × List DocumentSummary),
      siblingsLoop b pn curID ids mode prev next = .ok r →
      ∀ id ∈ ids, id ≠ curID →
        ∃ item, lookupA pn.nodes id = some item ∧
          (isValidURI item.uri = true →
            ∃ s m, b.scrape (b.baseURL ++ item.uri) = .ok (s, m)) := by
  intro ids
  induction ids with
  | nil => intro mode prev next r _ id hmem; exact absurd hmem (by simp)
  | cons id0 rest ih =>
    intro mode prev next r h id hmem hne
    rw [siblingsLoop] at h
    by_cases hpiv : (id0 == curID) = true
    · rw [if_pos hpiv] at h
      rcases List.mem_cons.mp hmem with hcase | hcase
      · subst hcase
        exact absurd (by simpa using hpiv) hne
      · exact ih false prev next r h id hcase hne
    · rw [if_neg hpiv] at h
      cases hl : lookupA pn.nodes id0 with
      | none => rw [hl] at h; exact absurd h (by simp)
      | some item =>
        rw [hl] at h
        dsimp only at h
        rcases List.mem_cons.mp hmem with hcase | hcase
        · subst hcase
          refine ⟨item, hl, ?_⟩
          intro hvalid
          rw [if_pos hvalid] at h
          cases hs : b.scrape (b.baseURL ++ item.uri) with
          | error e => rw [hs] at h; exact absurd h (by simp)
          | ok q => obtain ⟨s, m⟩ := q; exact ⟨s, m, rfl⟩
        · by_cases hv : isValidURI item.uri
          · rw [if_pos hv] at h
            cases hs : b.scrape (b.baseURL ++ item.uri) with
            | error e => rw [hs] at h; exact absurd h (by simp)
            | ok q =>
              obtain ⟨s, m⟩ := q
              rw [hs] at h
              dsimp only at h
              by_cases hmode : mode = true
              · subst hmode
                rw [if_pos rfl] at h
                exact ih true (prev ++ [loadItemData b.baseURL s item]) next r h id hcase hne
              · have hmode' : mode = false := by
                  cases mode
                  · rfl
                  · exact absurd rfl hmode
                subst hmode'
                rw [if_neg (by simp : ¬(false = true))] at h
                exact ih false prev (next ++ [loadItemData b.baseURL s item]) r h id hcase hne
          · rw [if_neg hv] at h
            exact ih mode prev next r h id hcase hne

/-! ## Fail-fast: any downstream failure means no Document -/

/-- Inversion for the sibling block. -/
theorem computeSiblings_ok_elim {b : Backend} {content : SiteContent}
    {r : List DocumentSummary × List DocumentSummary}
    (h : computeSiblings b content = .ok r) :
    content.path = [] ∨
      ∃ parent rest pn, content.path = parent :: rest ∧
        b.getNodes parent.id = .ok (some pn) ∧
        siblingsLoop b pn content.item.id pn.index true [] [] = .ok r := by
  unfold computeSiblings at h
  split at h
  · left; assumption
  rename_i parent rest heq
  right
  split at h
  · exact absurd h (by simp)
  · exact absurd h (by simp)
  rename_i pn heq2
  exact ⟨parent, rest, pn, heq, heq2, h⟩

/-- Inversion for the children block. -/
theorem computeChildren_ok_elim {b : Backend} {content : SiteContent}
    {out : List DocumentSummary}
    (h : computeChildren b content = .ok out) :
    ∃ cn, b.getNodes content.item.id = .ok (some cn) ∧
      childrenLoop b cn cn.index = .ok out := by
  unfold computeChildren at h
  split at h
  · exact absurd h (by simp)
  · exact absurd h (by simp)
  rename_i cn heq
  exact ⟨cn, heq, h⟩

/-- One of GetDocument's downstream operations fails: content resolution, a
valid-URI ancestor scrape, the self scrape, the registered rendering hook, a
node fetch or a node-map lookup (parent, current), a sibling lookup or a
valid-URI sibling scrape, a child lookup or a child scrape. -/
def failsSomewhere (b : Backend) (path : String) : Prop :=
  (∃ e, b.getContent path = .error e) ∨
  ∃ content, b.getContent path = .ok content ∧
    ((∃ item ∈ content.path, isValidURI item.uri = true ∧
        ∃ e, b.scrape (b.baseURL ++ item.uri) = .error e) ∨
     (∃ e, b.scrape (b.baseURL ++ path) = .error e) ∨
     (∃ cs, b.contentScrapers content.mimeType = some cs ∧ ∃ e, cs content = .error e) ∨
     (∃ parent rest, content.path = parent :: rest ∧
       ((∃ e, b.getNodes parent.id = .error e) ∨
        b.getNodes parent.id = .ok none ∨
        (∃ pn, b.getNodes parent.id = .ok (some pn) ∧
          ∃ id ∈ pn.index, id ≠ content.item.id ∧
            (lookupA pn.nodes id = none ∨
             ∃ item, lookupA pn.nodes id = some item ∧ isValidURI item.uri = true ∧
               ∃ e, b.scrape (b.baseURL ++ item.uri) = .error e)))) ∨
     (∃ e, b.getNodes content.item.id = .error e) ∨
     b.getNodes content.item.id = .ok none ∨
     (∃ cn, b.getNodes content.item.id = .ok (some cn) ∧
       ∃ id ∈ cn.index,
         (lookupA cn.nodes id = none ∨
          ∃ item, lookupA cn.nodes id = some item ∧
            ∃ e, b.scrape (b.baseURL ++ item.uri) = .error e)))

/-- C3.  GetDocument is strictly fail-fast: if any single downstream
operation fails — content-node resolution, any valid-URI ancestor scrape, the
self scrape, the rendering hook, any node fetch or node-index lookup, any
sibling or child lookup or scrape — then GetDocument returns an error and no
Document (the `Except` result carries either a Document or an error, never
both, so an error result is exactly Go's `nil, err`). -/
theorem c3_fail_fast (b : Backend) (path : String)
    (hf : failsSomewhere b path) :
    ∃ e, GetDocument b path = .error e := by
  cases hres : GetDocument b path with
  | error e => exact ⟨e, rfl⟩
  | ok doc =>
    exfalso
    obtain ⟨content, hc, hbc, s, m0, hscrape, hds, hmd, hsib, hch⟩ := getDocument_ok_elim hres
    rcases hf with ⟨e, he⟩ | ⟨content', hc', hf⟩
    · rw [hc] at he; exact absurd he (by simp)
    rw [hc] at hc'
    injection hc' with h'
    subst h'
    rcases hf with hanc | hself | hhook | hsibf | hge | hgn | hchf
    · obtain ⟨item, hmem, hvalid, e, he⟩ := hanc
      obtain ⟨s', m', hs'⟩ :=
        breadcrumbLoop_ok_sub b content.path.length content.path 0
          (List.replicate content.path.length zeroSummary) doc.breadcrump hbc item hmem hvalid
      rw [hs'] at he
      exact absurd he (by simp)
    · obtain ⟨e, he⟩ := hself
      rw [hscrape] at he
      exact absurd he (by simp)
    · obtain ⟨cs, hcs, e, he⟩ := hhook
      rw [applyContentScraper, hcs] at hmd
      dsimp only at hmd
      rw [he] at hmd
      exact absurd hmd (by simp)
    · obtain ⟨parent, rest, hpath, hcase⟩ := hsibf
      rcases computeSiblings_ok_elim hsib with hnil | ⟨parent', rest', pn, hpath', hpn, hloop⟩
      · rw [hpath] at hnil; exact absurd hnil (by simp)
      rw [hpath] at hpath'
      injection hpath' with hp1 hp2
      subst hp1
      subst hp2
      rcases hcase with ⟨e, he⟩ | hnone | ⟨pn', hpn', id, hmem, hne, hidcase⟩
      · rw [hpn] at he; exact absurd he (by simp)
      · rw [hpn] at hnone; exact absurd hnone (by simp)
      · rw [hpn] at hpn'
        injection hpn' with h''
        injection h'' with h''
        subst h''
        obtain ⟨item, hl, hsc⟩ :=
          siblingsLoop_ok_sub b pn content.item.id pn.index true [] []
            (doc.prevSiblings, doc.nextSiblings) hloop id hmem hne
        rcases hidcase with hlnone | ⟨item', hl', hvalid', e, he⟩
        · rw [hl] at hlnone; exact absurd hlnone (by simp)
        · rw [hl] at hl'
          injection hl' with h''
          subst h''
          obtain ⟨s', m', hs'⟩ := hsc hvalid'
          rw [hs'] at he
          exact absurd he (by simp)
    · obtain ⟨e, he⟩ := hge
      obtain ⟨cn, hcn, -⟩ := computeChildren_ok_elim hch
      rw [hcn] at he
      exact absurd he (by simp)
    · obtain ⟨cn, hcn, -⟩ := computeChildren_ok_elim hch
      rw [hcn] at hgn
      exact absurd hgn (by simp)
    · obtain ⟨cn', hcn', id, hmem, hcase⟩ := hchf
      obtain ⟨cn, hcn, hloop⟩ := computeChildren_ok_elim hch
      rw [hcn] at hcn'
      injection hcn' with h''
      injection h'' with h''
      subst h''
      obtain ⟨-, -, hsub⟩ := childrenLoop_ok_char b cn cn.index doc.children hloop
      obtain ⟨item, hl, s', m', hs'⟩ := hsub id hmem
      rcases hcase with hlnone | ⟨item', hl', e, he⟩
      · rw [hl] at hlnone; exact absurd hlnone (by simp)
      · rw [hl] at hl'
        injection hl' with h''
        subst h''
        rw [hs'] at he
        exact absurd he (by simp)

/-! ## Expected concrete outputs -/

/-- The document GetDocument returns on backend A. -/
def docA : Document :=
  { documentSummary := loadItemData "https://s" (mkSummary "https://s/cur") itemCurA,
    markdown := "md https://s/cur",
    breadcrump := [zeroSummary],
    children := [],
    prevSiblings := [],
    nextSiblings := [] }

/-- The document GetDocument returns on backend B. -/
def docB : Document :=
  { documentSummary := loadItemData "https://s" (mkSummary "https://s/recipes/italian") itemItalian,
    markdown := "md https://s/recipes/italian",
    breadcrump := [mkSummary "https://s/", mkSummary "https://s/recipes"],
    children := [],
    prevSiblings := [loadItemData "https://s" (mkSummary "https://s/recipes/french") itemFrench],
    nextSiblings := [loadItemData "https://s" (mkSummary "https://s/recipes/spanish") itemSpanish] }

/-- The document GetDocument returns on backend C. -/
def docC : Document :=
  { documentSummary := loadItemData "https://s" (mkSummary "https://s/cur") itemCurC,
    markdown := "md https://s/cur",
    breadcrump := [],
    children := [loadItemData "https://s" (mkSummary "https://s/cur/k1") itemKidOk,
                 loadItemData "https://s" (mkSummary "https://snope") itemKidBad],
    prevSiblings := [],
    nextSiblings := [] }

/-! ## C1 -/

/-- C1, counterexample.  On backend A the resolved ancestor list has one
entry, whose URI is invalid, so the number of valid-URI ancestors is 0 — yet
the breadcrumb has length 1, and the slot of the invalid ancestor holds the
zero-valued placeholder summary. -/
theorem c1_counterexample :
    GetDocument envA "/cur" = Except.ok docA ∧
    docA.breadcrump.length = 1 ∧
    (contentA.path.filter (fun it => isValidURI it.uri)).length = 0 ∧
    docA.breadcrump = [zeroSummary] :=
  ⟨rfl, rfl, rfl, rfl⟩

/-- C1, amended.  On success the breadcrumb has the length of the FULL
resolved ancestor list: each valid-URI ancestor contributes its scraped
summary and each invalid-URI ancestor leaves the zero-valued placeholder, at
the reversed position (the breadcrumb is the reverse of the per-ancestor
entry list). -/
theorem c1_breadcrumb_placeholders (b : Backend) (path : String) (doc : Document)
    (content : SiteContent)
    (hdoc : GetDocument b path = .ok doc)
    (hc : b.getContent path = .ok content) :
    doc.breadcrump.length = content.path.length ∧
    doc.breadcrump = (content.path.map (breadcrumbEntry b)).reverse := by
  have h := breadcrumb_of_ok hdoc hc
  exact ⟨by simp [h], h⟩

/-- C1, witness: the amended statement evaluated on backend A. -/
theorem c1_breadcrumb_placeholders_witness :
    docA.breadcrump.length = contentA.path.length ∧
    docA.breadcrump = (contentA.path.map (breadcrumbEntry envA)).reverse :=
  c1_breadcrumb_placeholders envA "/cur" docA contentA rfl rfl

/-! ## C5 -/

/-- C5.  The breadcrumb is root-first: the summary scraped for the ancestor
at position `i` of the content source's nearest-ancestor-first list sits at
breadcrumb position `length - i - 1`. -/
theorem c5_breadcrumb_root_first (b : Backend) (path : String) (doc : Document)
    (content : SiteContent) (i : Nat) (s : DocumentSummary) (m : String)
    (hdoc : GetDocument b path = .ok doc)
    (hc : b.getContent path = .ok content)
    (hi : i < content.path.length)
    (hvalid : isValidURI (content.path.get ⟨i, hi⟩).uri = true)
    (hs : b.scrape (b.baseURL ++ (content.path.get ⟨i, hi⟩).uri) = .ok (s, m)) :
    doc.breadcrump[content.path.length - i - 1]? = some s := by
  have hb := breadcrumb_of_ok hdoc hc
  rw [hb]
  rw [List.getElem?_eq_getElem (by simp; omega)]
  rw [List.getElem_reverse]
  have hidx : (content.path.map (breadcrumbEntry b)).length - 1 -
      (content.path.length - i - 1) = i := by
    simp
    omega
  simp only [hidx]
  rw [List.getElem_map]
  have hget : content.path[i] = content.path.get ⟨i, hi⟩ := rfl
  rw [hget]
  rw [breadcrumbEntry, if_pos hvalid, hs]

/-- C5, witness: on backend B, the ancestor at position 0 (`recipes`,
nearest) sits at breadcrumb position 1 (last). -/
theorem c5_breadcrumb_root_first_witness :
    docB.breadcrump[contentB.path.length - 0 - 1]? = some (mkSummary "https://s/recipes") :=
  c5_breadcrumb_root_first envB "/recipes/italian" docB contentB 0
    (mkSummary "https://s/recipes") "md https://s/recipes" rfl rfl (by decide) (by decide) rfl

/-! ## C2 -/

/-- C2.  When the parent's index is `before ++ [current] ++ after` with the
current id in neither half, prevSiblings is exactly the (valid-URI, scraped,
identity-overwritten) summaries of `before` in index order and nextSiblings
exactly those of `after`: position relative to the pivot decides the half,
order is preserved, the pivot contributes to neither list, and invalid-URI
entries are skipped without disturbing pivot detection. -/
theorem c2_sibling_partition (b : Backend) (path : String) (doc : Document)
    (content : SiteContent) (parent : Item) (restPath : List Item) (pn : NodeInfo)
    (before after : List String)
    (hdoc : GetDocument b path = .ok doc)
    (hc : b.getContent path = .ok content)
    (hpath : content.path = parent :: restPath)
    (hpn : b.getNodes parent.id = .ok (some pn))
    (hidx : pn.index = before ++ content.item.id :: after)
    (hbefore : content.item.id ∉ before)
    (hafter : content.item.id ∉ after) :
    doc.prevSiblings = siblingSummaries b pn before ∧
    doc.nextSiblings = siblingSummaries b pn after := by
  obtain ⟨content', hc', -, s, m0, -, -, -, hsib, -⟩ := getDocument_ok_elim hdoc
  rw [hc] at hc'
  injection hc' with h1
  subst h1
  rcases computeSiblings_ok_elim hsib with hnil | ⟨parent', rest', pn', hpath', hpn', hloop⟩
  · rw [hpath] at hnil; exact absurd hnil (by simp)
  · rw [hpath] at hpath'
    injection hpath' with hp1 hp2
    subst hp1
    subst hp2
    rw [hpn] at hpn'
    injection hpn' with h2
    injection h2 with h2
    subst h2
    rw [hidx] at hloop
    have hsplit := siblingsLoop_split b pn content.item.id before after [] []
      doc.prevSiblings doc.nextSiblings hbefore hafter hloop
    simpa using hsplit

/-- C2, witness: the spec's end-to-end example on backend B. -/
theorem c2_sibling_partition_witness :
    docB.prevSiblings = siblingSummaries envB pnB ["french"] ∧
    docB.nextSiblings = siblingSummaries envB pnB ["spanish"] :=
  c2_sibling_partition envB "/recipes/italian" docB contentB itemRecipes [itemHome] pnB
    ["french"] ["spanish"] rfl rfl rfl rfl rfl (by decide) (by decide)

/-! ## C6 -/

/-- C6.  Identity fields are overwritten from the authoritative ContentNode
item: for any summary, `loadItemData` sets content-type, id and
URL (= BaseURL ++ URI) from the item and leaves the scrape-derived
title/name/description/keywords untouched; the self summary of a successful
GetDocument is exactly the scraped summary with identity so overwritten. -/
theorem c6_identity_overwrite (b : Backend) (path : String) (doc : Document)
    (content : SiteContent) (s : DocumentSummary) (m0 : String)
    (hdoc : GetDocument b path = .ok doc)
    (hc : b.getContent path = .ok content)
    (hs : b.scrape (b.baseURL ++ path) = .ok (s, m0)) :
    (∀ (d : DocumentSummary) (item : Item),
      (loadItemData b.baseURL d item).mimeType = item.mimeType ∧
      (loadItemData b.baseURL d item).id = item.id ∧
      (loadItemData b.baseURL d item).url = b.baseURL ++ item.uri ∧
      (loadItemData b.baseURL d item).contentSummary = d.contentSummary) ∧
    doc.documentSummary = loadItemData b.baseURL s content.item ∧
    doc.documentSummary.contentSummary = s.contentSummary ∧
    doc.documentSummary.id = content.item.id ∧
    doc.documentSummary.url = b.baseURL ++ content.item.uri ∧
    doc.documentSummary.mimeType = content.item.mimeType := by
  obtain ⟨content', hc', -, s', m0', hs', hds, -⟩ := getDocument_ok_elim hdoc
  rw [hc] at hc'
  injection hc' with h1
  subst h1
  rw [hs] at hs'
  injection hs' with h2
  injection h2 with h3 h4
  subst h3
  refine ⟨fun d item => ⟨rfl, rfl, rfl, rfl⟩, hds, ?_, ?_, ?_, ?_⟩ <;> rw [hds]
    <;> rfl

/-- C6, witness: the self summary on backend B. -/
theorem c6_identity_overwrite_witness :
    (∀ (d : DocumentSummary) (item : Item),
      (loadItemData envB.baseURL d item).mimeType = item.mimeType ∧
      (loadItemData envB.baseURL d item).id = item.id ∧
      (loadItemData envB.baseURL d item).url = envB.baseURL ++ item.uri ∧
      (loadItemData envB.baseURL d item).contentSummary = d.contentSummary) ∧
    docB.documentSummary = loadItemData envB.baseURL (mkSummary "https://s/recipes/italian") contentB.item ∧
    docB.documentSummary.contentSummary = (mkSummary "https://s/recipes/italian").contentSummary ∧
    docB.documentSummary.id = contentB.item.id ∧
    docB.documentSummary.url = envB.baseURL ++ contentB.item.uri ∧
    docB.documentSummary.mimeType = contentB.item.mimeType :=
  c6_identity_overwrite envB "/recipes/italian" docB contentB
    (mkSummary "https://s/recipes/italian") "md https://s/recipes/italian" rfl rfl rfl

/-! ## C10 -/

/-- C10.  The children of a successful GetDocument are built from every
entry of the current node's index, with no URI-validity filter: each entry —
valid or not — is scraped at BaseURL concatenated with its URI and appears in
the children list (so the list has the index's length), and an index entry
missing from the lookup map is impossible on a successful run (it aborts the
call with an error). -/
theorem c10_children_no_filter (b : Backend) (path : String) (doc : Document)
    (content : SiteContent) (cn : NodeInfo)
    (hdoc : GetDocument b path = .ok doc)
    (hc : b.getContent path = .ok content)
    (hcn : b.getNodes content.item.id = .ok (some cn)) :
    doc.children = childSummaries b cn cn.index ∧
    doc.children.length = cn.index.length ∧
    (∀ id ∈ cn.index, ∃ item, lookupA cn.nodes id = some item ∧
      ∃ s m, b.scrape (b.baseURL ++ item.uri) = .ok (s, m)) ∧
    (∀ id ∈ cn.index, lookupA cn.nodes id = none → False) := by
  obtain ⟨content', hc', -, s, m0, -, -, -, -, hch⟩ := getDocument_ok_elim hdoc
  rw [hc] at hc'
  injection hc' with h1
  subst h1
  obtain ⟨cn', hcn', hloop⟩ := computeChildren_ok_elim hch
  rw [hcn] at hcn'
  injection hcn' with h2
  injection h2 with h2
  subst h2
  obtain ⟨hchar, hlen, hsub⟩ := childrenLoop_ok_char b cn cn.index doc.children hloop
  refine ⟨hchar, hlen, hsub, ?_⟩
  intro id hmem hnone
  obtain ⟨item, hl, -⟩ := hsub id hmem
  rw [hl] at hnone
  exact absurd hnone (by simp)

/-- C10, witness: on backend C the child with the invalid URI `nope` is
scraped at `https://s ++ nope` and appears in the children list. -/
theorem c10_children_no_filter_witness :
    docC.children = childSummaries envC cnC cnC.index ∧
    docC.children.length = cnC.index.length ∧
    (∀ id ∈ cnC.index, ∃ item, lookupA cnC.nodes id = some item ∧
      ∃ s m, envC.scrape (envC.baseURL ++ item.uri) = .ok (s, m)) ∧
    (∀ id ∈ cnC.index, lookupA cnC.nodes id = none → False) :=
  c10_children_no_filter envC "/cur" docC contentC cnC rfl rfl rfl

/-- C3, witness: on backend E, content resolution fails and GetDocument
returns an error. -/
theorem c3_fail_fast_witness :
    ∃ e, GetDocument envErr "/x" = .error e :=
  c3_fail_fast envErr "/x" (Or.inl ⟨"boom", rfl⟩)

/-! ## C4 -/

/-- C4, counterexample.  When the scrape (or document) operation fails, the
handler writes the error event and returns: the stream is `start, error` with
NO complete event — the claim's unconditional `complete` is false. -/
theorem c4_counterexample :
    scrapeSSEEvents (Except.error "scrape failed") =
      [StreamEventKind.start, StreamEventKind.errorEvent] ∧
    StreamEventKind.complete ∉ scrapeSSEEvents (Except.error "scrape failed") ∧
    documentSSEEvents (Except.ok ()) (Except.error "boom") =
      [StreamEventKind.start, StreamEventKind.errorEvent] ∧
    StreamEventKind.complete ∉ documentSSEEvents (Except.ok ()) (Except.error "boom") := by
  decide

/-- C4, amended.  A streaming-triggered operation emits `start` and then
exactly one of `result` or `error`; on success `complete` follows the
result, but on failure the stream ends right after the error event and no
complete event is emitted. -/
theorem c4_stream_event_sequence (r : Except String (DocumentSummary × String))
    (rc : Except String Unit) (d : Except String Document) :
    (scrapeSSEEvents r =
        [StreamEventKind.start, StreamEventKind.result, StreamEventKind.complete] ∨
      scrapeSSEEvents r = [StreamEventKind.start, StreamEventKind.errorEvent]) ∧
    ((∃ v, r = .ok v) ↔ scrapeSSEEvents r =
        [StreamEventKind.start, StreamEventKind.result, StreamEventKind.complete]) ∧
    (documentSSEEvents rc d =
        [StreamEventKind.start, StreamEventKind.result, StreamEventKind.complete] ∨
      documentSSEEvents rc d = [StreamEventKind.start, StreamEventKind.errorEvent]) ∧
    (((∃ u, rc = .ok u) ∧ ∃ doc, d = .ok doc) ↔ documentSSEEvents rc d =
        [StreamEventKind.start, StreamEventKind.result, StreamEventKind.complete]) := by
  cases r <;> cases rc <;> cases d <;> simp [scrapeSSEEvents, documentSSEEvents]

/-! ## C7 -/

/-- Each enqueue either queues the event or logs the drop: the queued plus
logged totals grow by exactly one. -/
theorem broadcastEvent_total (s : BroadcastState) (e : SSEEventM) :
    (broadcastEvent s e).queue.length + (broadcastEvent s e).droppedLog.length
      = s.queue.length + s.droppedLog.length + 1 ∧
    (broadcastEvent s e).capacity = s.capacity := by
  unfold broadcastEvent
  split <;> simp <;> omega

/-- Accounting over any enqueue sequence: nothing is lost, every event ends
up queued or logged. -/
theorem broadcast_foldl_account :
    ∀ (events : List SSEEventM) (s : BroadcastState),
      (events.foldl broadcastEvent s).queue.length
          + (events.foldl broadcastEvent s).droppedLog.length
        = s.queue.length + s.droppedLog.length + events.length := by
  intro events
  induction events with
  | nil => intro s; simp
  | cons e rest ih =>
    intro s
    rw [List.foldl_cons, ih (broadcastEvent s e)]
    obtain ⟨hstep, -⟩ := broadcastEvent_total s e
    simp only [List.length_cons]
    omega

/-- The queue never outgrows its capacity (or its initial length, if that
was already larger). -/
theorem broadcast_foldl_bound :
    ∀ (events : List SSEEventM) (s : BroadcastState),
      (events.foldl broadcastEvent s).queue.length ≤ max s.capacity s.queue.length := by
  intro events
  induction events with
  | nil => intro s; simp
  | cons e rest ih =>
    intro s
    rw [List.foldl_cons]
    refine le_trans (ih (broadcastEvent s e)) ?_
    unfold broadcastEvent
    split
    · rename_i hlt
      simp only [List.length_append, List.length_singleton]
      omega
    · simp

/-- C7.  The broadcast enqueue is a total function of the current state (the
producer never blocks, there is no waiting state): a full queue is left
unchanged and the dropped event is appended to the drop log (one log entry
per drop, so drops are counted, not silently lost), a non-full queue receives
the event; over any K-event enqueue burst with no dequeue, queued plus
logged-dropped events account for all K, and the queue never exceeds its
capacity. -/
theorem c7_broadcast_nonblocking (s : BroadcastState) (e : SSEEventM)
    (events : List SSEEventM) :
    (s.queue.length ≥ s.capacity →
      (broadcastEvent s e).queue = s.queue ∧
      (broadcastEvent s e).droppedLog = s.droppedLog ++ [e.id]) ∧
    (s.queue.length < s.capacity →
      (broadcastEvent s e).queue = s.queue ++ [e] ∧
      (broadcastEvent s e).droppedLog = s.droppedLog) ∧
    ((events.foldl broadcastEvent s).queue.length
        + (events.foldl broadcastEvent s).droppedLog.length
      = s.queue.length + s.droppedLog.length + events.length) ∧
    (events.foldl broadcastEvent s).queue.length ≤ max s.capacity s.queue.length := by
  refine ⟨?_, ?_, broadcast_foldl_account events s, broadcast_foldl_bound events s⟩
  · intro hfull
    unfold broadcastEvent
    rw [if_neg (by omega)]
    exact ⟨rfl, rfl⟩
  · intro hlt
    unfold broadcastEvent
    rw [if_pos hlt]
    exact ⟨rfl, rfl⟩

/-- A full queue of capacity 1. -/
def fullState : BroadcastState :=
  { capacity := 1, queue := [{ id := "e1", event := "x" }], droppedLog := [] }

/-- C7, witness: three enqueues against a full capacity-1 queue leave the
queue unchanged, log every drop, and account for all events. -/
theorem c7_broadcast_nonblocking_witness :
    ((broadcastEvent fullState { id := "e2", event := "y" }).queue = fullState.queue ∧
      (broadcastEvent fullState { id := "e2", event := "y" }).droppedLog =
        fullState.droppedLog ++ ["e2"]) ∧
    (([{ id := "e2", event := "y" }, { id := "e3", event := "y" }].foldl
        broadcastEvent fullState).queue.length
      + ([{ id := "e2", event := "y" }, { id := "e3", event := "y" }].foldl
          broadcastEvent fullState).droppedLog.length
      = fullState.queue.length + fullState.droppedLog.length + 2) ∧
    ([{ id := "e2", event := "y" }, { id := "e3", event := "y" }].foldl
        broadcastEvent fullState).queue.length ≤ max fullState.capacity fullState.queue.length :=
  ⟨(c7_broadcast_nonblocking fullState { id := "e2", event := "y" } []).1 (by decide),
   (c7_broadcast_nonblocking fullState { id := "e2", event := "y" }
      [{ id := "e2", event := "y" }, { id := "e3", event := "y" }]).2.2.1,
   (c7_broadcast_nonblocking fullState { id := "e2", event := "y" }
      [{ id := "e2", event := "y" }, { id := "e3", event := "y" }]).2.2.2⟩

/-! ## C8 -/

/-- After erasing a key, looking it up finds nothing. -/
theorem lookupA_eraseA {α : Type} (l : List (String × α)) (key : String) :
    lookupA (eraseA l key) key = none := by
  induction l with
  | nil => rfl
  | cons p rest ih =>
    rw [eraseA, List.filter_cons]
    by_cases hp : (p.1 == key) = true
    · rw [if_neg (by simp [bne, hp])]
      exact ih
    · rw [if_pos (by simp [bne]; simpa using hp)]
      rw [lookupA, if_neg (by simpa using hp)]
      exact ih

/-- C8.  Removing a client is idempotent: an absent id changes nothing and
closes nothing; a present id has its Done channel closed exactly once (one
new entry in the close log) and its registry entry deleted, after which the
id resolves to nothing; and running removeClient twice equals running it
once. -/
theorem c8_remove_client_idempotent (r : ClientRegistry) (cid : String) :
    (lookupA r.clients cid = none → removeClient r cid = r) ∧
    ((∃ c, lookupA r.clients cid = some c) →
      (removeClient r cid).closedDone = r.closedDone ++ [cid] ∧
      lookupA (removeClient r cid).clients cid = none) ∧
    removeClient (removeClient r cid) cid = removeClient r cid := by
  refine ⟨?_, ?_, ?_⟩
  · intro h
    unfold removeClient
    rw [h]
  · rintro ⟨c, hc⟩
    unfold removeClient
    rw [hc]
    exact ⟨rfl, lookupA_eraseA r.clients cid⟩
  · cases hl : lookupA r.clients cid with
    | none =>
      have h1 : removeClient r cid = r := by unfold removeClient; rw [hl]
      rw [h1]
      exact h1
    | some c =>
      have h1 : removeClient r cid =
          { clients := eraseA r.clients cid, closedDone := r.closedDone ++ [cid] } := by
        unfold removeClient
        rw [hl]
      have h2 : lookupA (eraseA r.clients cid) cid = none := lookupA_eraseA r.clients cid
      rw [h1]
      unfold removeClient
      dsimp only
      rw [h2]

/-- A registry holding one client. -/
def regOne : ClientRegistry :=
  { clients := [("c1", { id := "c1" })], closedDone := [] }

/-- C8, witness: removing client `c1` once closes its Done channel and
empties the registry; removing it again changes nothing. -/
theorem c8_remove_client_idempotent_witness :
    ((removeClient regOne "c1").closedDone = regOne.closedDone ++ ["c1"] ∧
      lookupA (removeClient regOne "c1").clients "c1" = none) ∧
    removeClient (removeClient regOne "c1") "c1" = removeClient regOne "c1" :=
  ⟨(c8_remove_client_idempotent regOne "c1").2.1 ⟨{ id := "c1" }, rfl⟩,
   (c8_remove_client_idempotent regOne "c1").2.2⟩

/-! ## C9 -/

/-- A configuration asking for a 10-second keepalive interval. -/
def cfgTen : SSEServerConfig :=
  { keepaliveInterval := 10 * goSecond, bufferSize := 100, clientTimeout := 60 * goSecond }

/-- C9.  The keepalive ticker interval `HandleSSE` actually uses is the
hardcoded 30 seconds of sse.go:211, NOT the configured
`SSEServerConfig.KeepaliveInterval`: with a 10-second configuration the
configured interval and the ticker interval differ, so the claim "the
interval is the configured KeepaliveInterval" fails on the code (the config
field is defined, documented and defaulted but never read). -/
theorem c9_keepalive_interval_bug :
    handleSSETickerInterval = 30 * goSecond ∧
    DefaultSSEServerConfig.keepaliveInterval = 30 * goSecond ∧
    (effectiveConfig (some cfgTen)).keepaliveInterval = 10 * goSecond ∧
    handleSSETickerInterval ≠ (effectiveConfig (some cfgTen)).keepaliveInterval ∧
    (effectiveConfig none).keepaliveInterval = 30 * goSecond := by
  refine ⟨rfl, rfl, rfl, by decide, rfl⟩
